import Mathlib

/- Verification of the gcalsync cross-calendar blocker synchronization engine.

   The Go source (sync.go, dbinit.go, calendar_provider.go, caldav_calendar.go)
   is shallowly embedded below.  The sqlite ledger, the trace of remote write
   calls and fatal termination (log.Fatalf) are passed as explicit state; the
   remote calendar backends are modelled as a deterministic oracle fixing the
   responses of one run; Go time.Time values are modelled as civil dates (for
   the sync window computation) respectively abstract integer ticks in
   nanoseconds (for event start/end instants, with 0 standing for Go's zero
   time, i.e. time.Time.IsZero). -/

/-! ## Substring containment (Go strings.Contains) -/

/-- Does the character list begin with the given pattern?  Helper for
`containsL`; mirrors the head test of Go strings.Contains. -/
def startsWithL : List Char → List Char → Bool
  | _, [] => true
  | [], _ :: _ => false
  | c :: cs, d :: ds => decide (c = d) && startsWithL cs ds

/-- Does the character list hold the pattern as a contiguous run anywhere?
Model of Go strings.Contains on character lists. -/
def containsL : List Char → List Char → Bool
  | [], sub => sub.isEmpty
  | c :: cs, sub => startsWithL (c :: cs) sub || containsL cs sub

/-- Go strings.Contains(s, sub). -/
def strContains (s sub : String) : Bool := containsL s.data sub.data

/-! ## Go civil-date model for the sync window

The engine builds exactly two time.Time values: time.Date(y, m, 1, 0, 0, 0, 0,
time.UTC) and its AddDate(0, 2, -1).  Both are midnight UTC instants, so they
are modelled as civil dates.  Go's time.Date normalizes an out-of-range month
with floored division by 12 and an out-of-range day by calendar carry/borrow,
which `normMonth` and `normDay` implement. -/

/-- Go leap-year rule (year divisible by 4 and not by 100, or divisible
by 400). -/
def isLeap (y : Int) : Bool := (y % 4 == 0 && y % 100 != 0) || y % 400 == 0

/-- Days in a (normalized, 1-based) month of a year. -/
def daysInMonth (y m : Int) : Int :=
  if m = 2 then (if isLeap y then 29 else 28)
  else if m = 4 ∨ m = 6 ∨ m = 9 ∨ m = 11 then 30
  else 31

theorem daysInMonth_bounds (y m : Int) : 28 ≤ daysInMonth y m ∧ daysInMonth y m ≤ 31 := by
  unfold daysInMonth
  split
  · split <;> omega
  · split <;> omega

/-- A midnight-UTC instant as a normalized civil date. -/
structure GoDate where
  year : Int
  month : Int
  day : Int
deriving DecidableEq, Repr

/-- Go time.Date month normalization: bring the month into 1..12, carrying
into the year with floored division.  All call sites below pass a month
≥ 1, where Int division agrees with Go's floored norm(). -/
def normMonth (y m : Int) : Int × Int := (y + (m - 1) / 12, (m - 1) % 12 + 1)

/-- Day normalization by calendar borrow/carry: the month is assumed to be in
1..12 and the day is brought into 1..daysInMonth by walking whole months. -/
def normDay (y m d : Int) : GoDate :=
  if d < 1 then
    let py := if m = 1 then y - 1 else y
    let pm := if m = 1 then (12 : Int) else m - 1
    normDay py pm (d + daysInMonth py pm)
  else if d ≤ daysInMonth y m then ⟨y, m, d⟩
  else normDay (if m = 12 then y + 1 else y) (if m = 12 then 1 else m + 1) (d - daysInMonth y m)
termination_by (if d < 1 then 50 - d else d).toNat
decreasing_by
  · have h1 := daysInMonth_bounds (y - 1) 12
    have h2 := daysInMonth_bounds y (m - 1)
    split <;> split <;> omega
  · have h1 := daysInMonth_bounds y m
    split <;> omega

/-- Go time.Date(y, m, d, 0, 0, 0, 0, time.UTC). -/
def goDate (y m d : Int) : GoDate :=
  let p := normMonth y m
  normDay p.1 p.2 d

/-- Go time.Time.AddDate(years, months, days): re-enter time.Date with the
shifted civil components and normalize. -/
def addDate (t : GoDate) (years months days : Int) : GoDate :=
  goDate (t.year + years) (t.month + months) (t.day + days)

/-- sync.go lines 123-125: the propagation window of one run, from the clock's
current year and month: startOfCurrentMonth and its AddDate(0, 2, -1). -/
def syncWindow (nowYear nowMonth : Int) : GoDate × GoDate :=
  let startOfCurrentMonth := goDate nowYear nowMonth 1
  (startOfCurrentMonth, addDate startOfCurrentMonth 0 2 (-1))

/-- Modelled from the spec: the upper window endpoint in the spec's words,
"end of next month" — the last day of the month after the current one.
Used only to compare against what the code computes. -/
def lastDayOfNextMonth (y m : Int) : GoDate :=
  let p := normMonth y (m + 1)
  ⟨p.1, p.2, daysInMonth p.1 p.2⟩

/-! ## Data model (calendar_provider.go, sync.go, dbinit.go) -/

/-- Go time.Duration of one hour in nanoseconds. -/
def goHour : Int := 3600000000000

/-- calendar_provider.go: the provider-neutral Event.  Start/End are integer
ticks; 0 is Go's zero time (time.Time.IsZero). -/
structure Event where
  ID : String
  Summary : String
  Description : String
  Start : Int
  End : Int
  Status : String
deriving DecidableEq, Repr

/-- sync.go lines 68-73: a tracked calendar. -/
structure CalendarInfo where
  ID : String
  ProviderType : String
  ProviderConfig : String
  ProviderKey : String
deriving DecidableEq, Repr

/-- One row of the blocker_events ledger (dbinit.go lines 46-52 plus the
last_updated / origin_calendar_id / response_status columns added by the
migrations; primary key (calendar_id, origin_event_id)). -/
structure BlockerRow where
  event_id : String
  origin_calendar_id : String
  calendar_id : String
  account_name : String
  origin_event_id : String
  last_updated : String
  response_status : String
deriving DecidableEq, Repr

/-- A remote write issued through a CalendarProvider. -/
inductive RemoteCall where
  | add (calendarId : String) (event : Event)
  | update (calendarId : String) (eventId : String) (event : Event)
  | delete (calendarId : String) (eventId : String)
deriving DecidableEq, Repr

/-- Error kind of a provider GetEvent: the remote object is absent, or the
call failed for some other reason (network, authorization, ...). -/
inductive GetErr where
  | notFound
  | other
deriving DecidableEq, Repr

/-- The remote behaviour of one run: each provider operation is a fixed
response function.  All providers of the run are collapsed into one oracle
keyed by calendar identifier, which is faithful because every tracked
calendar belongs to exactly one provider.  Both concrete GetEvent
implementations (google_calendar.go line 115, caldav_calendar.go line 240)
return a nil Event exactly when they return a non-nil error, so the engine's
nil checks on the returned pointer correspond to Except.toOption below. -/
structure Oracle where
  listEvents : String → GoDate → GoDate → Except Unit (List Event)
  addEvent : String → Event → Except Unit String
  updateEvent : String → String → Event → Except Unit Unit
  deleteEvent : String → String → Except Unit Unit
  getEvent : String → String → Except GetErr Event

/-- The engine's machine state: the ledger table, the trace of remote writes
issued so far, and whether log.Fatalf has terminated the run. -/
structure SyncState where
  db : List BlockerRow
  calls : List RemoteCall
  fatal : Bool
deriving DecidableEq, Repr

/-! ## Ledger operations -/

/-- The primary-key test of blocker_events. -/
def blockerKeyMatches (calId originEventId : String) (r : BlockerRow) : Bool :=
  decide (r.calendar_id = calId ∧ r.origin_event_id = originEventId)

/-- sync.go lines 152-153: SELECT ... FROM blocker_events WHERE
calendar_id = ? AND origin_event_id = ?. -/
def queryBlocker (db : List BlockerRow) (calId originEventId : String) : Option BlockerRow :=
  db.find? (blockerKeyMatches calId originEventId)

/-- sync.go lines 210-213: INSERT OR REPLACE INTO blocker_events, with the
table's primary key (calendar_id, origin_event_id): any conflicting row is
replaced. -/
def upsertBlocker (db : List BlockerRow) (row : BlockerRow) : List BlockerRow :=
  row :: db.filter (fun r => !(blockerKeyMatches row.calendar_id row.origin_event_id r))

/-- sync.go line 296: DELETE FROM blocker_events WHERE event_id = ?. -/
def deleteBlockerByEventId (db : List BlockerRow) (eventId : String) : List BlockerRow :=
  db.filter (fun r => !(decide (r.event_id = eventId)))

/-- At most one ledger row per (calendar_id, origin_event_id) pair. -/
def ledgerKeyUnique (db : List BlockerRow) : Prop :=
  db.Pairwise (fun r1 r2 =>
    ¬(r1.calendar_id = r2.calendar_id ∧ r1.origin_event_id = r2.origin_event_id))

/-! ## Reconciliation engine (sync.go, syncCalendarWithProvider) -/

/-- sync.go lines 178-194: the destination-neutral blocker event built from a
source event. -/
def mkBlockerEvent (event : Event) : Event :=
  let blockerSummary := "O_o " ++ event.Summary
  let endTime := if event.End = 0 then event.Start + goHour else event.End
  { ID := "", Summary := blockerSummary, Description := event.Description,
    Start := event.Start, End := endTime, Status := "confirmed" }

/-- sync.go lines 196-205: UpdateEvent when a blocker ID is on record,
AddEvent otherwise; newEventID is the existing ID on update and the
backend-returned ID on add. -/
def attemptWrite (oracle : Oracle) (destCalId existingID : String) (ev : Event) :
    Except Unit String :=
  if existingID = "" then oracle.addEvent destCalId ev
  else
    match oracle.updateEvent destCalId existingID ev with
    | .ok _ => .ok existingID
    | .error e => .error e

/-- The remote write issued by `attemptWrite`, as a trace element. -/
def writeCall (destCalId existingID : String) (ev : Event) : RemoteCall :=
  if existingID = "" then .add destCalId ev else .update destCalId existingID ev

/-- sync.go lines 178-224: build the blocker, write it remotely, and only on
success upsert the ledger row; on failure log.Fatalf (fatal). -/
def writeBlocker (oracle : Oracle) (calendarID nowStr otherAccountName : String)
    (otherCal : CalendarInfo) (event : Event) (existingID : String)
    (st : SyncState) : SyncState :=
  let blockerEvent := mkBlockerEvent event
  let call := writeCall otherCal.ID existingID blockerEvent
  match attemptWrite oracle otherCal.ID existingID blockerEvent with
  | .ok newEventID =>
      { db := upsertBlocker st.db
          { event_id := newEventID, origin_calendar_id := calendarID,
            calendar_id := otherCal.ID, account_name := otherAccountName,
            origin_event_id := event.ID, last_updated := nowStr,
            response_status := "accepted" },
        calls := st.calls ++ [call], fatal := st.fatal }
  | .error _ => { st with calls := st.calls ++ [call], fatal := true }

/-- sync.go lines 147-225: one (source event, destination calendar) step of
the propagation pass.  nowStr is time.Now().Format(time.RFC3339) of this run
(line 156); the skip test on line 162 compares the stored last_updated
against it. -/
def processDestination (oracle : Oracle) (calendarID nowStr : String) (event : Event)
    (otherAccountName : String) (otherCal : CalendarInfo) (st : SyncState) : SyncState :=
  if st.fatal then st
  else if otherCal.ID = calendarID then st
  else
    match queryBlocker st.db otherCal.ID event.ID with
    | some row =>
        if row.last_updated = nowStr ∧ row.origin_calendar_id = calendarID ∧
            row.response_status = "accepted" then st
        else writeBlocker oracle calendarID nowStr otherAccountName otherCal event
          row.event_id st
    | none => writeBlocker oracle calendarID nowStr otherAccountName otherCal event "" st

/-- sync.go lines 135-229: one source event of the propagation pass, with the
two skip tests of lines 139 and 143 (substring tests on the summary). -/
def processEvent (oracle : Oracle) (calendars : List (String × List CalendarInfo))
    (calendarID nowStr providerType : String) (st : SyncState) (event : Event) : SyncState :=
  if st.fatal then st
  else if decide (providerType = "google") && strContains event.Summary "working location" then st
  else if !(strContains event.Summary "O_o") then
    calendars.foldl
      (fun st1 p => (p.2).foldl
        (fun st2 c => processDestination oracle calendarID nowStr event p.1 c st2) st1)
      st
  else st

/-- The propagation pass over the listed source events. -/
def propagationPass (oracle : Oracle) (calendars : List (String × List CalendarInfo))
    (calendarID nowStr providerType : String) (events : List Event)
    (st : SyncState) : SyncState :=
  events.foldl (processEvent oracle calendars calendarID nowStr providerType) st

/-- sync.go lines 259-270: is a ledger row an orphan?  Its origin event ID is
not in the just-collected event-ID set and the direct fetch from the source
calendar yields no event (the fetch error is discarded on line 264, so any
failure counts) or an event with cancelled status. -/
def isOrphan (oracle : Oracle) (calendarID : String) (allEventsId : List String)
    (r : BlockerRow) : Bool :=
  !(allEventsId.contains r.origin_event_id) &&
    (match (oracle.getEvent calendarID r.origin_event_id).toOption with
     | none => true
     | some sourceEvent => decide (sourceEvent.Status = "cancelled"))

/-- sync.go lines 273-302: remove one marked blocker: fetch it from the
destination; if it is already gone skip the remote delete; otherwise delete
it remotely, which on failure is fatal unless the fetched copy was cancelled;
finally remove the ledger row. -/
def cleanupRow (oracle : Oracle) (otherCalId : String) (st : SyncState)
    (eventID : String) : SyncState :=
  if st.fatal then st
  else
    match (oracle.getEvent otherCalId eventID).toOption with
    | none => { st with db := deleteBlockerByEventId st.db eventID }
    | some targetEvent =>
        match oracle.deleteEvent otherCalId eventID with
        | .ok _ =>
            { db := deleteBlockerByEventId st.db eventID,
              calls := st.calls ++ [.delete otherCalId eventID], fatal := st.fatal }
        | .error _ =>
            if targetEvent.Status = "cancelled" then
              { db := deleteBlockerByEventId st.db eventID,
                calls := st.calls ++ [.delete otherCalId eventID], fatal := st.fatal }
            else { st with calls := st.calls ++ [.delete otherCalId eventID], fatal := true }

/-- sync.go lines 234-303: the cleanup of one destination calendar: collect
this destination's ledger rows whose origin is the synced calendar, mark the
orphans, then remove each marked blocker. -/
def cleanupDestination (oracle : Oracle) (calendarID : String) (allEventsId : List String)
    (otherCal : CalendarInfo) (st : SyncState) : SyncState :=
  if st.fatal then st
  else if otherCal.ID = calendarID then st
  else
    let rows := st.db.filter (fun r =>
      decide (r.calendar_id = otherCal.ID ∧ r.origin_calendar_id = calendarID))
    let eventsToDelete := (rows.filter (isOrphan oracle calendarID allEventsId)).map
      (fun r => r.event_id)
    eventsToDelete.foldl (cleanupRow oracle otherCal.ID) st

/-- sync.go lines 232-305: the cleanup pass over all destination calendars. -/
def cleanupPass (oracle : Oracle) (calendars : List (String × List CalendarInfo))
    (calendarID : String) (allEventsId : List String) (st : SyncState) : SyncState :=
  calendars.foldl
    (fun st1 p => (p.2).foldl
      (fun st2 c => cleanupDestination oracle calendarID allEventsId c st2) st1)
    st

/-- sync.go lines 111-306: one full run of syncCalendarWithProvider for one
source calendar: list the source's events over the sync window, propagate
each, then clean up orphaned blockers.  The accountName, useReminders and
eventVisibility parameters of the Go function are never read by it (the
destination account names come from the calendars map) and are omitted.  nowYear
and nowMonth are the clock components feeding the window, nowStr the same
clock formatted as RFC3339 (the engine reads nothing else from the clock). -/
def syncCalendarWithProvider (oracle : Oracle) (calendarID : String)
    (calendars : List (String × List CalendarInfo)) (nowYear nowMonth : Int)
    (nowStr providerType : String) (db0 : List BlockerRow) : SyncState :=
  let w := syncWindow nowYear nowMonth
  match oracle.listEvents calendarID w.1 w.2 with
  | .error _ => { db := db0, calls := [], fatal := true }
  | .ok events =>
      let st1 := propagationPass oracle calendars calendarID nowStr providerType events
        { db := db0, calls := [], fatal := false }
      cleanupPass oracle calendars calendarID (events.map (fun e => e.ID)) st1

/-! ## CalDAV provider: AddEvent (caldav_calendar.go lines 83-115) -/

/-- A wall-clock reading; nanos is the sub-second part. -/
structure GoClock where
  year : Int
  month : Int
  day : Int
  hour : Int
  minute : Int
  second : Int
  nanos : Int
deriving DecidableEq, Repr

/-- Zero-pad to two digits. -/
def pad2 (n : Int) : String := if 0 ≤ n ∧ n < 10 then "0" ++ toString n else toString n

/-- Zero-pad to four digits. -/
def pad4 (n : Int) : String :=
  if 0 ≤ n ∧ n < 10 then "000" ++ toString n
  else if 0 ≤ n ∧ n < 100 then "00" ++ toString n
  else if 0 ≤ n ∧ n < 1000 then "0" ++ toString n
  else toString n

/-- Go Format with layout "20060102T150405Z": one-second granularity, the
sub-second part of the clock is dropped. -/
def formatCompactUTC (t : GoClock) : String :=
  pad4 t.year ++ pad2 t.month ++ pad2 t.day ++ "T" ++
    pad2 t.hour ++ pad2 t.minute ++ pad2 t.second ++ "Z"

/-- The single-VEVENT iCalendar body written by the CalDAV provider. -/
structure ICalObj where
  uid : String
  summary : String
  description : String
  dtstart : Int
  dtend : Int
  status : String
deriving DecidableEq, Repr

/-- caldav_calendar.go lines 93-99: the iCal body of AddEvent (STATUS is the
literal "CONFIRMED"). -/
def mkICal (uid : String) (event : Event) : ICalObj :=
  { uid := uid, summary := event.Summary, description := event.Description,
    dtstart := event.Start, dtend := event.End, status := "CONFIRMED" }

/-- WebDAV PUT (PutCalendarObject): create or replace the resource at the
path. -/
def putObject (store : List (String × ICalObj)) (path : String) (obj : ICalObj) :
    List (String × ICalObj) :=
  (path, obj) :: store.filter (fun e => !(decide (e.1 = path)))

/-- caldav_calendar.go AddEvent: the event UID is "gcalsync-" plus the
wall-clock time at second granularity, the resource path is
calPath ++ "/" ++ uid ++ ".ics" (calPath stands for the parsed
calURL.Path), and the body is PUT at that path.  Returns the UID and the
server store after the PUT. -/
def caldavAddEvent (now : GoClock) (calPath : String) (event : Event)
    (store : List (String × ICalObj)) : String × List (String × ICalObj) :=
  let eventUID := "gcalsync-" ++ formatCompactUTC now
  let path := calPath ++ "/" ++ eventUID ++ ".ics"
  (eventUID, putObject store path (mkICal eventUID event))

/-! ## Spec-side orphan predicate (for the refinement comparison of C5) -/

/-- Modelled from the spec: §4.4's orphan test in the spec's own words — the
row is an orphan exactly when the direct fetch fails with not-found, or
succeeds but reports a cancelled status; any other fetch outcome (including a
fetch failing for another reason) leaves the row untouched.  To be compared
with `isOrphan`, which is what the code does. -/
def isOrphanSpec (oracle : Oracle) (calendarID : String) (allEventsId : List String)
    (r : BlockerRow) : Bool :=
  !(allEventsId.contains r.origin_event_id) &&
    (match oracle.getEvent calendarID r.origin_event_id with
     | .error .notFound => true
     | .error .other => false
     | .ok sourceEvent => decide (sourceEvent.Status = "cancelled"))

/-! ## A concrete two-calendar scenario

Two tracked calendars on two accounts; calA holds one ordinary appointment.
`steadyOracle` fixes a remote world that does not change: listing calA always
returns the same event, every write succeeds, and GetEvent finds exactly that
event.  Used to evaluate the engine on concrete runs. -/

def calA : CalendarInfo := ⟨"calA", "caldav", "srv", "caldav-srv"⟩

def calB : CalendarInfo := ⟨"calB", "caldav", "srv", "caldav-srv"⟩

def demoCalendars : List (String × List CalendarInfo) :=
  [("acc1", [calA]), ("acc2", [calB])]

def ev1 : Event := ⟨"ev1", "Meeting", "notes", 100, 200, "confirmed"⟩

def steadyOracle : Oracle :=
  { listEvents := fun calId _ _ => if calId = "calA" then .ok [ev1] else .ok []
    addEvent := fun _ _ => .ok "blk1"
    updateEvent := fun _ _ _ => .ok ()
    deleteEvent := fun _ _ => .ok ()
    getEvent := fun calId eid =>
      if calId = "calA" ∧ eid = "ev1" then .ok ev1 else .error .notFound }

/-- First run, at clock second t1. -/
def demoRun1 : SyncState :=
  syncCalendarWithProvider steadyOracle "calA" demoCalendars 2024 5
    "2024-05-10T08:00:00Z" "caldav" []

/-- Second run, at a later clock second t2, against the unchanged remote
world, starting from the ledger the first run left behind. -/
def demoRun2 : SyncState :=
  syncCalendarWithProvider steadyOracle "calA" demoCalendars 2024 5
    "2024-05-10T09:00:00Z" "caldav" demoRun1.db

/-! ## Substring lemmas -/

theorem startsWithL_iff (sub l : List Char) :
    startsWithL l sub = true ↔ ∃ post, l = sub ++ post := by
  induction sub generalizing l with
  | nil => simp [startsWithL]
  | cons d ds ih =>
    cases l with
    | nil => simp [startsWithL]
    | cons c cs =>
      simp only [startsWithL, Bool.and_eq_true, decide_eq_true_eq, ih, List.cons_append,
        List.cons.injEq]
      constructor
      · rintro ⟨rfl, post, rfl⟩
        exact ⟨post, rfl, rfl⟩
      · rintro ⟨post, rfl, rfl⟩
        exact ⟨rfl, post, rfl⟩

theorem containsL_iff (sub l : List Char) :
    containsL l sub = true ↔ ∃ pre post, l = pre ++ sub ++ post := by
  induction l with
  | nil =>
    simp only [containsL, List.isEmpty_iff]
    constructor
    · rintro rfl
      exact ⟨[], [], rfl⟩
    · rintro ⟨pre, post, h⟩
      have h2 := h.symm
      simp only [List.append_eq_nil] at h2
      exact h2.1.2
  | cons c cs ih =>
    simp only [containsL, Bool.or_eq_true, startsWithL_iff, ih]
    constructor
    · rintro (⟨post, h⟩ | ⟨pre, post, h⟩)
      · exact ⟨[], post, by simp [h]⟩
      · exact ⟨c :: pre, post, by simp [h]⟩
    · rintro ⟨pre, post, h⟩
      cases pre with
      | nil =>
        exact Or.inl ⟨post, by simpa using h⟩
      | cons a as =>
        simp only [List.cons_append, List.cons.injEq] at h
        exact Or.inr ⟨as, post, h.2⟩

theorem strContains_marker (s : String) : strContains ("O_o " ++ s) "O_o" = true := by
  rw [strContains, containsL_iff]
  refine ⟨[], ' ' :: s.data, ?_⟩
  rw [String.data_append]
  rfl

/-! ## A generic fold invariant -/

theorem foldl_inv {α : Type _} (P : SyncState → Prop) (f : SyncState → α → SyncState) :
    ∀ (l : List α), (∀ st a, a ∈ l → P st → P (f st a)) →
      ∀ st, P st → P (l.foldl f st) := by
  intro l
  induction l with
  | nil => intro _ st h; exact h
  | cons x xs ih =>
    intro hf st h
    exact ih (fun st a ha => hf st a (List.mem_cons_of_mem _ ha)) (f st x)
      (hf st x (List.mem_cons_self _ _) h)

/-! ## Ledger key uniqueness through every engine operation (claim C2) -/

theorem ledgerKeyUnique_filter (db : List BlockerRow) (p : BlockerRow → Bool)
    (h : ledgerKeyUnique db) : ledgerKeyUnique (db.filter p) :=
  List.Pairwise.sublist (List.filter_sublist db) h

theorem ledgerKeyUnique_delete (db : List BlockerRow) (eventId : String)
    (h : ledgerKeyUnique db) : ledgerKeyUnique (deleteBlockerByEventId db eventId) :=
  ledgerKeyUnique_filter db _ h

theorem ledgerKeyUnique_upsert (db : List BlockerRow) (row : BlockerRow)
    (h : ledgerKeyUnique db) : ledgerKeyUnique (upsertBlocker db row) := by
  unfold upsertBlocker ledgerKeyUnique
  refine List.Pairwise.cons ?_ (ledgerKeyUnique_filter db _ h)
  intro r hr hkey
  have hmem := List.of_mem_filter hr
  simp only [blockerKeyMatches, Bool.not_eq_true', decide_eq_false_iff_not] at hmem
  exact hmem ⟨hkey.1.symm, hkey.2.symm⟩

theorem ledgerKeyUnique_writeBlocker (oracle : Oracle)
    (calendarID nowStr otherAccountName : String) (otherCal : CalendarInfo)
    (event : Event) (existingID : String) (st : SyncState)
    (h : ledgerKeyUnique st.db) :
    ledgerKeyUnique (writeBlocker oracle calendarID nowStr otherAccountName otherCal
      event existingID st).db := by
  unfold writeBlocker
  dsimp only
  split
  · exact ledgerKeyUnique_upsert st.db _ h
  · exact h

theorem ledgerKeyUnique_processDestination (oracle : Oracle)
    (calendarID nowStr : String) (event : Event) (otherAccountName : String)
    (otherCal : CalendarInfo) (st : SyncState) (h : ledgerKeyUnique st.db) :
    ledgerKeyUnique (processDestination oracle calendarID nowStr event
      otherAccountName otherCal st).db := by
  unfold processDestination
  split
  · exact h
  split
  · exact h
  split
  · split
    · exact h
    · exact ledgerKeyUnique_writeBlocker _ _ _ _ _ _ _ _ h
  · exact ledgerKeyUnique_writeBlocker _ _ _ _ _ _ _ _ h

theorem ledgerKeyUnique_processEvent (oracle : Oracle)
    (calendars : List (String × List CalendarInfo))
    (calendarID nowStr providerType : String) (st : SyncState) (event : Event)
    (h : ledgerKeyUnique st.db) :
    ledgerKeyUnique (processEvent oracle calendars calendarID nowStr providerType
      st event).db := by
  unfold processEvent
  split
  · exact h
  split
  · exact h
  split
  · refine foldl_inv (fun s => ledgerKeyUnique s.db) _ calendars ?_ st h
    intro st1 p _ h1
    refine foldl_inv (fun s => ledgerKeyUnique s.db) _ p.2 ?_ st1 h1
    intro st2 c _ h2
    exact ledgerKeyUnique_processDestination _ _ _ _ _ _ _ h2
  · exact h

theorem ledgerKeyUnique_cleanupRow (oracle : Oracle) (otherCalId : String)
    (st : SyncState) (eventID : String) (h : ledgerKeyUnique st.db) :
    ledgerKeyUnique (cleanupRow oracle otherCalId st eventID).db := by
  unfold cleanupRow
  split
  · exact h
  split
  · exact ledgerKeyUnique_delete _ _ h
  split
  · exact ledgerKeyUnique_delete _ _ h
  split
  · exact ledgerKeyUnique_delete _ _ h
  · exact h

theorem ledgerKeyUnique_cleanupDestination (oracle : Oracle) (calendarID : String)
    (allEventsId : List String) (otherCal : CalendarInfo) (st : SyncState)
    (h : ledgerKeyUnique st.db) :
    ledgerKeyUnique (cleanupDestination oracle calendarID allEventsId otherCal st).db := by
  unfold cleanupDestination
  split
  · exact h
  split
  · exact h
  refine foldl_inv (fun s => ledgerKeyUnique s.db) _ _ ?_ st h
  intro st1 a _ h1
  exact ledgerKeyUnique_cleanupRow _ _ _ _ h1

theorem ledgerKeyUnique_propagationPass (oracle : Oracle)
    (calendars : List (String × List CalendarInfo))
    (calendarID nowStr providerType : String) (events : List Event) (st : SyncState)
    (h : ledgerKeyUnique st.db) :
    ledgerKeyUnique (propagationPass oracle calendars calendarID nowStr providerType
      events st).db := by
  unfold propagationPass
  refine foldl_inv (fun s => ledgerKeyUnique s.db) _ events ?_ st h
  intro st1 e _ h1
  exact ledgerKeyUnique_processEvent _ _ _ _ _ _ _ h1

theorem ledgerKeyUnique_cleanupPass (oracle : Oracle)
    (calendars : List (String × List CalendarInfo)) (calendarID : String)
    (allEventsId : List String) (st : SyncState) (h : ledgerKeyUnique st.db) :
    ledgerKeyUnique (cleanupPass oracle calendars calendarID allEventsId st).db := by
  unfold cleanupPass
  refine foldl_inv (fun s => ledgerKeyUnique s.db) _ calendars ?_ st h
  intro st1 p _ h1
  refine foldl_inv (fun s => ledgerKeyUnique s.db) _ p.2 ?_ st1 h1
  intro st2 c _ h2
  exact ledgerKeyUnique_cleanupDestination _ _ _ _ _ h2

/-- Claim C2: for every (destination calendar, origin event) pair there is at
most one ledger row in blocker_events, after every operation of the engine:
every recording of a propagated blocker is an insert-or-replace keyed on
(calendar_id, origin_event_id), so no sequence of sync runs starting from a
key-unique ledger (in particular from the empty one) can produce two rows
sharing that pair. -/
theorem sync_ledgerKeyUnique (oracle : Oracle) (calendarID : String)
    (calendars : List (String × List CalendarInfo)) (nowYear nowMonth : Int)
    (nowStr providerType : String) (db0 : List BlockerRow)
    (h : ledgerKeyUnique db0) :
    ledgerKeyUnique (syncCalendarWithProvider oracle calendarID calendars nowYear
      nowMonth nowStr providerType db0).db := by
  unfold syncCalendarWithProvider
  dsimp only
  split
  · exact h
  · exact ledgerKeyUnique_cleanupPass _ _ _ _ _
      (ledgerKeyUnique_propagationPass _ _ _ _ _ _ _ h)

/-- Witness for C2: the invariant holds concretely for a run from the empty
ledger, and chains across a second run. -/
theorem sync_ledgerKeyUnique_witness :
    ledgerKeyUnique ([] : List BlockerRow) ∧ ledgerKeyUnique demoRun1.db ∧
      ledgerKeyUnique demoRun2.db :=
  ⟨List.Pairwise.nil,
   sync_ledgerKeyUnique steadyOracle "calA" demoCalendars 2024 5
     "2024-05-10T08:00:00Z" "caldav" [] List.Pairwise.nil,
   sync_ledgerKeyUnique steadyOracle "calA" demoCalendars 2024 5
     "2024-05-10T09:00:00Z" "caldav" demoRun1.db
     (sync_ledgerKeyUnique steadyOracle "calA" demoCalendars 2024 5
       "2024-05-10T08:00:00Z" "caldav" [] List.Pairwise.nil)⟩

/-- Claim C3: the blocker event built for every propagated source event has
summary "O_o " followed by the original summary, the description carried
through, the start copied, the end copied except that a zero (absent) end is
synthesized as start plus one hour, and status forced to "confirmed". -/
theorem mkBlockerEvent_spec (e : Event) :
    (mkBlockerEvent e).Summary = "O_o " ++ e.Summary ∧
    (mkBlockerEvent e).Description = e.Description ∧
    (mkBlockerEvent e).Start = e.Start ∧
    (mkBlockerEvent e).End = (if e.End = 0 then e.Start + goHour else e.End) ∧
    (mkBlockerEvent e).Status = "confirmed" :=
  ⟨rfl, rfl, rfl, rfl, rfl⟩

/-- Claim C4: a failed remote blocker write leaves the ledger untouched and is
fatal for the run; the ledger upsert happens only after a successful write,
and the persisted event ID is the one returned by AddEvent respectively the
existing ID confirmed by UpdateEvent.  A fatal state short-circuits every
later propagation and cleanup step. -/
theorem writeBlocker_failure_and_success (oracle : Oracle)
    (calendarID nowStr otherAccountName : String) (otherCal : CalendarInfo)
    (event : Event) (existingID : String) (st : SyncState)
    (hf : st.fatal = false) :
    ((attemptWrite oracle otherCal.ID existingID (mkBlockerEvent event)).isOk = false →
      (writeBlocker oracle calendarID nowStr otherAccountName otherCal event
        existingID st).db = st.db ∧
      (writeBlocker oracle calendarID nowStr otherAccountName otherCal event
        existingID st).fatal = true) ∧
    (∀ newEventID,
      attemptWrite oracle otherCal.ID existingID (mkBlockerEvent event) =
        .ok newEventID →
      (writeBlocker oracle calendarID nowStr otherAccountName otherCal event
        existingID st).fatal = false ∧
      (writeBlocker oracle calendarID nowStr otherAccountName otherCal event
        existingID st).db = upsertBlocker st.db
        { event_id := newEventID, origin_calendar_id := calendarID,
          calendar_id := otherCal.ID, account_name := otherAccountName,
          origin_event_id := event.ID, last_updated := nowStr,
          response_status := "accepted" } ∧
      (existingID ≠ "" → newEventID = existingID)) ∧
    (∀ (ev : Event) (acc : String) (cal : CalendarInfo) (st2 : SyncState),
      st2.fatal = true →
      processDestination oracle calendarID nowStr ev acc cal st2 = st2 ∧
      cleanupDestination oracle calendarID [] cal st2 = st2) := by
  refine ⟨?_, ?_, ?_⟩
  · intro hw
    unfold writeBlocker
    dsimp only
    cases hatt : attemptWrite oracle otherCal.ID existingID (mkBlockerEvent event) with
    | ok id => rw [hatt] at hw; simp [Except.isOk, Except.toBool] at hw
    | error e => simp
  · intro newEventID hw
    unfold writeBlocker
    dsimp only
    rw [hw]
    refine ⟨hf, rfl, ?_⟩
    intro hne
    unfold attemptWrite at hw
    rw [if_neg hne] at hw
    cases hupd : oracle.updateEvent otherCal.ID existingID (mkBlockerEvent event) with
    | ok u => rw [hupd] at hw; simp only [Except.ok.injEq] at hw; exact hw.symm
    | error e => rw [hupd] at hw; simp at hw
  · intro ev acc cal st2 hf2
    constructor
    · unfold processDestination
      rw [if_pos hf2]
    · unfold cleanupDestination
      rw [if_pos hf2]

/-- Witness for C4: a concretely failing AddEvent leaves the ledger unchanged
and sets the fatal flag. -/
theorem writeBlocker_failure_witness :
    (writeBlocker
      { steadyOracle with addEvent := fun _ _ => .error () } "calA"
      "2024-05-10T08:00:00Z" "acc2" calB ev1 ""
      { db := [], calls := [], fatal := false }).db = [] ∧
    (writeBlocker
      { steadyOracle with addEvent := fun _ _ => .error () } "calA"
      "2024-05-10T08:00:00Z" "acc2" calB ev1 ""
      { db := [], calls := [], fatal := false }).fatal = true :=
  (writeBlocker_failure_and_success
    { steadyOracle with addEvent := fun _ _ => .error () } "calA"
    "2024-05-10T08:00:00Z" "acc2" calB ev1 ""
    { db := [], calls := [], fatal := false } rfl).1 rfl

/-- Claim C7: during orphan cleanup, when the blocker is already absent from
the destination (the direct fetch yields no event), the engine issues no
remote DeleteEvent, still deletes the ledger row, and raises no error. -/
theorem cleanupRow_absent_target (oracle : Oracle) (otherCalId : String)
    (st : SyncState) (eventID : String) (hf : st.fatal = false)
    (hget : (oracle.getEvent otherCalId eventID).toOption = none) :
    cleanupRow oracle otherCalId st eventID =
      { db := deleteBlockerByEventId st.db eventID, calls := st.calls,
        fatal := false } := by
  unfold cleanupRow
  rw [if_neg (by rw [hf]; exact Bool.false_ne_true), hget]
  rw [← hf]

/-- Witness for C7: a concrete row whose blocker is gone from the destination
is cleaned out of the ledger with no remote delete and no error. -/
theorem cleanupRow_absent_target_witness :
    cleanupRow steadyOracle "calB"
      { db := [⟨"blkGone", "calA", "calB", "acc2", "evOld", "t0", "accepted"⟩],
        calls := [], fatal := false } "blkGone" =
      { db := [], calls := [], fatal := false } := by
  have h := cleanupRow_absent_target steadyOracle "calB"
    { db := [⟨"blkGone", "calA", "calB", "acc2", "evOld", "t0", "accepted"⟩],
      calls := [], fatal := false } "blkGone" rfl rfl
  rw [h]
  rfl

/-! ## Claims C6 and C10: the propagation skip tests -/

/-- Claim C6: an event whose summary carries the blocker marker (it is of the
form "O_o " followed by anything) is never itself propagated: the propagation
step for such an event is the identity, so no AddEvent or UpdateEvent is ever
issued for it, in every run. -/
theorem processEvent_skips_blockers (oracle : Oracle)
    (calendars : List (String × List CalendarInfo))
    (calendarID nowStr providerType : String) (st : SyncState) (event : Event)
    (rest : String) (h : event.Summary = "O_o " ++ rest) :
    processEvent oracle calendars calendarID nowStr providerType st event = st := by
  have hc : strContains event.Summary "O_o" = true := by
    rw [h]; exact strContains_marker rest
  unfold processEvent
  rw [hc]
  split
  · rfl
  split
  · rfl
  · rfl

/-- Witness for C6: a concrete marker-carrying event is left alone by the
propagation step. -/
theorem processEvent_skips_blockers_witness :
    processEvent steadyOracle demoCalendars "calA" "2024-05-10T08:00:00Z" "caldav"
      { db := [], calls := [], fatal := false }
      { ID := "blk9", Summary := "O_o Lunch", Description := "", Start := 1,
        End := 2, Status := "confirmed" } =
      { db := [], calls := [], fatal := false } :=
  processEvent_skips_blockers steadyOracle demoCalendars "calA"
    "2024-05-10T08:00:00Z" "caldav" { db := [], calls := [], fatal := false }
    { ID := "blk9", Summary := "O_o Lunch", Description := "", Start := 1,
      End := 2, Status := "confirmed" } "Lunch" rfl

/-- Claim C10: the propagation skip tests are substring matches on the event
summary, not kind or prefix checks: strContains holds exactly when the
pattern occurs contiguously anywhere in the string; every event whose summary
holds "O_o" anywhere is excluded from propagation, and under provider type
"google" every event whose summary holds "working location" anywhere is also
excluded. -/
theorem processEvent_substring_skips :
    (∀ s sub : String,
      strContains s sub = true ↔ ∃ pre post, s.data = pre ++ sub.data ++ post) ∧
    (∀ (oracle : Oracle) (calendars : List (String × List CalendarInfo))
      (calendarID nowStr providerType : String) (st : SyncState) (event : Event),
      strContains event.Summary "O_o" = true →
      processEvent oracle calendars calendarID nowStr providerType st event = st) ∧
    (∀ (oracle : Oracle) (calendars : List (String × List CalendarInfo))
      (calendarID nowStr : String) (st : SyncState) (event : Event),
      strContains event.Summary "working location" = true →
      processEvent oracle calendars calendarID nowStr "google" st event = st) := by
  refine ⟨fun s sub => containsL_iff sub.data s.data, ?_, ?_⟩
  · intro oracle calendars calendarID nowStr providerType st event hc
    unfold processEvent
    rw [hc]
    split
    · rfl
    split
    · rfl
    · rfl
  · intro oracle calendars calendarID nowStr st event hc
    unfold processEvent
    rw [hc]
    split
    · rfl
    split
    · rfl
    · simp at *

/-- Witness for C10: a genuine appointment titled "Stop by O_office" (the
marker occurs mid-word) is not mirrored, and under the google provider a
genuine appointment titled "Discuss working location policy" is not mirrored
either. -/
theorem processEvent_substring_skips_witness :
    processEvent steadyOracle demoCalendars "calA" "2024-05-10T08:00:00Z" "caldav"
      { db := [], calls := [], fatal := false }
      { ID := "e7", Summary := "Stop by O_office", Description := "", Start := 1,
        End := 2, Status := "confirmed" } =
      { db := [], calls := [], fatal := false } ∧
    processEvent steadyOracle demoCalendars "calA" "2024-05-10T08:00:00Z" "google"
      { db := [], calls := [], fatal := false }
      { ID := "e8", Summary := "Discuss working location policy", Description := "",
        Start := 1, End := 2, Status := "confirmed" } =
      { db := [], calls := [], fatal := false } :=
  ⟨processEvent_substring_skips.2.1 steadyOracle demoCalendars "calA"
      "2024-05-10T08:00:00Z" "caldav" { db := [], calls := [], fatal := false }
      { ID := "e7", Summary := "Stop by O_office", Description := "", Start := 1,
        End := 2, Status := "confirmed" } (by decide),
   processEvent_substring_skips.2.2 steadyOracle demoCalendars "calA"
      "2024-05-10T08:00:00Z" { db := [], calls := [], fatal := false }
      { ID := "e8", Summary := "Discuss working location policy", Description := "",
        Start := 1, End := 2, Status := "confirmed" } (by decide)⟩

/-! ## Claim C1: the second run is not write-free (code bug) -/

/-- Claim C1 (code bug): running sync twice in succession against an unchanged
remote world does NOT perform zero remote writes on the second run.  The skip
test of sync.go line 162 compares the ledger's stored last_updated against
time.Now() of the current run (line 156), not against the source event's
revision, so the marker stored by the first run never matches on a later run
and the engine re-issues an UpdateEvent for every (event, destination) pair.
The first run adds one blocker; the second run, from the ledger the first
left behind, with no remote changes, still issues a remote write. -/
theorem sync_second_run_still_writes :
    demoRun1.calls = [RemoteCall.add "calB" (mkBlockerEvent ev1)] ∧
    demoRun1.db = [⟨"blk1", "calA", "calB", "acc2", "ev1",
      "2024-05-10T08:00:00Z", "accepted"⟩] ∧
    demoRun2.calls = [RemoteCall.update "calB" "blk1" (mkBlockerEvent ev1)] ∧
    demoRun2.calls ≠ [] := by
  refine ⟨rfl, rfl, rfl, ?_⟩
  decide

/-! ## Cleanup-fold lemmas (claims C5) -/

theorem cleanupRow_db_cases (oracle : Oracle) (otherCalId : String) (st : SyncState)
    (eventID : String) :
    (cleanupRow oracle otherCalId st eventID).db = st.db ∨
    (cleanupRow oracle otherCalId st eventID).db =
      deleteBlockerByEventId st.db eventID := by
  unfold cleanupRow
  split
  · exact Or.inl rfl
  split
  · exact Or.inr rfl
  split
  · exact Or.inr rfl
  split
  · exact Or.inr rfl
  · exact Or.inl rfl

theorem cleanupRow_calls_cases (oracle : Oracle) (otherCalId : String) (st : SyncState)
    (eventID : String) :
    (cleanupRow oracle otherCalId st eventID).calls = st.calls ∨
    (cleanupRow oracle otherCalId st eventID).calls =
      st.calls ++ [RemoteCall.delete otherCalId eventID] := by
  unfold cleanupRow
  split
  · exact Or.inl rfl
  split
  · exact Or.inl rfl
  split
  · exact Or.inr rfl
  split
  · exact Or.inr rfl
  · exact Or.inr rfl

theorem cleanupRow_delete_ok (oracle : Oracle) (otherCalId : String) (st : SyncState)
    (eventID : String) (hd : ∀ c e, oracle.deleteEvent c e = .ok ())
    (hf : st.fatal = false) :
    (cleanupRow oracle otherCalId st eventID).db =
      deleteBlockerByEventId st.db eventID ∧
    (cleanupRow oracle otherCalId st eventID).fatal = false := by
  unfold cleanupRow
  rw [if_neg (by rw [hf]; exact Bool.false_ne_true)]
  cases hg : (oracle.getEvent otherCalId eventID).toOption with
  | none => exact ⟨rfl, hf⟩
  | some t => rw [hd otherCalId eventID]; exact ⟨rfl, hf⟩

theorem cleanupFold_db_subset (oracle : Oracle) (otherCalId : String) :
    ∀ (dels : List String) (st : SyncState) (r : BlockerRow),
      r ∈ (dels.foldl (cleanupRow oracle otherCalId) st).db → r ∈ st.db := by
  intro dels
  induction dels with
  | nil => intro st r hr; exact hr
  | cons x xs ih =>
    intro st r hr
    have h1 := ih (cleanupRow oracle otherCalId st x) r hr
    rcases cleanupRow_db_cases oracle otherCalId st x with h | h
    · rw [h] at h1; exact h1
    · rw [h] at h1; exact List.mem_of_mem_filter h1

theorem cleanupFold_preserves_row (oracle : Oracle) (otherCalId : String) :
    ∀ (dels : List String) (st : SyncState) (r : BlockerRow),
      r ∈ st.db → r.event_id ∉ dels →
      r ∈ (dels.foldl (cleanupRow oracle otherCalId) st).db := by
  intro dels
  induction dels with
  | nil => intro st r hr _; exact hr
  | cons x xs ih =>
    intro st r hr hnot
    refine ih (cleanupRow oracle otherCalId st x) r ?_ ?_
    · rcases cleanupRow_db_cases oracle otherCalId st x with h | h
      · rw [h]; exact hr
      · rw [h]
        refine List.mem_filter.mpr ⟨hr, ?_⟩
        simp only [Bool.not_eq_true', decide_eq_false_iff_not]
        intro hx
        exact hnot (hx ▸ List.mem_cons_self _ _)
    · intro hmem
      exact hnot (List.mem_cons_of_mem _ hmem)

theorem cleanupFold_fatal_false (oracle : Oracle) (otherCalId : String)
    (hd : ∀ c e, oracle.deleteEvent c e = .ok ()) :
    ∀ (dels : List String) (st : SyncState), st.fatal = false →
      (dels.foldl (cleanupRow oracle otherCalId) st).fatal = false := by
  intro dels
  induction dels with
  | nil => intro st hf; exact hf
  | cons x xs ih =>
    intro st hf
    exact ih _ (cleanupRow_delete_ok oracle otherCalId st x hd hf).2

theorem cleanupFold_removes (oracle : Oracle) (otherCalId : String)
    (hd : ∀ c e, oracle.deleteEvent c e = .ok ()) :
    ∀ (dels : List String) (st : SyncState) (eid : String), st.fatal = false →
      eid ∈ dels →
      ∀ r ∈ (dels.foldl (cleanupRow oracle otherCalId) st).db, r.event_id ≠ eid := by
  intro dels
  induction dels with
  | nil => intro st eid _ h; exact absurd h (List.not_mem_nil _)
  | cons x xs ih =>
    intro st eid hf hin r hr
    rcases List.mem_cons.mp hin with heq | hxs
    · subst heq
      have hsub := cleanupFold_db_subset oracle otherCalId xs _ r hr
      rw [(cleanupRow_delete_ok oracle otherCalId st eid hd hf).1] at hsub
      have := List.mem_filter.mp hsub
      simpa using this.2
    · exact ih (cleanupRow oracle otherCalId st x) eid
        (cleanupRow_delete_ok oracle otherCalId st x hd hf).2 hxs r hr

theorem cleanupFold_calls_shape (oracle : Oracle) (otherCalId : String) :
    ∀ (dels : List String) (st : SyncState) (c : RemoteCall),
      c ∈ (dels.foldl (cleanupRow oracle otherCalId) st).calls →
      c ∈ st.calls ∨ ∃ eid ∈ dels, c = RemoteCall.delete otherCalId eid := by
  intro dels
  induction dels with
  | nil => intro st c h; exact Or.inl h
  | cons x xs ih =>
    intro st c hc
    rcases ih (cleanupRow oracle otherCalId st x) c hc with h | ⟨eid, hm, he⟩
    · rcases cleanupRow_calls_cases oracle otherCalId st x with hh | hh
      · rw [hh] at h; exact Or.inl h
      · rw [hh] at h
        rcases List.mem_append.mp h with h1 | h1
        · exact Or.inl h1
        · refine Or.inr ⟨x, List.mem_cons_self _ _, ?_⟩
          simpa using h1
    · exact Or.inr ⟨eid, List.mem_cons_of_mem _ hm, he⟩

theorem cleanupDestination_eq (oracle : Oracle) (calendarID : String)
    (allEventsId : List String) (otherCal : CalendarInfo) (st : SyncState)
    (hf : st.fatal = false) (hne : otherCal.ID ≠ calendarID) :
    cleanupDestination oracle calendarID allEventsId otherCal st =
      (((st.db.filter (fun r =>
          decide (r.calendar_id = otherCal.ID ∧ r.origin_calendar_id = calendarID))).filter
        (isOrphan oracle calendarID allEventsId)).map (fun r => r.event_id)).foldl
        (cleanupRow oracle otherCal.ID) st := by
  unfold cleanupDestination
  rw [if_neg (by rw [hf]; exact Bool.false_ne_true), if_neg hne]

/-- Claim C5 (amended): in the cleanup pass over one destination, a selected
ledger row is treated as an orphan exactly when its origin event ID was not
seen in the source listing and the direct fetch from the source returns no
event — which, since both GetEvent implementations return nil exactly when
they return an error, happens on ANY fetch failure, not only not-found — or
returns an event with cancelled status; an orphan row is removed from the
ledger, and a non-orphan row survives with no remote delete issued for its
blocker. -/
theorem cleanupDestination_orphan_semantics (oracle : Oracle) (calendarID : String)
    (allEventsId : List String) (otherCal : CalendarInfo) (st : SyncState)
    (r : BlockerRow) (hf : st.fatal = false)
    (hd : ∀ c e, oracle.deleteEvent c e = .ok ())
    (hnd : (st.db.map (fun r => r.event_id)).Nodup)
    (hr : r ∈ st.db) (hcal : r.calendar_id = otherCal.ID)
    (horig : r.origin_calendar_id = calendarID) (hne : otherCal.ID ≠ calendarID) :
    (isOrphan oracle calendarID allEventsId r =
      (!(allEventsId.contains r.origin_event_id) &&
        (match oracle.getEvent calendarID r.origin_event_id with
         | .error _ => true
         | .ok sourceEvent => decide (sourceEvent.Status = "cancelled")))) ∧
    (isOrphan oracle calendarID allEventsId r = true →
      r ∉ (cleanupDestination oracle calendarID allEventsId otherCal st).db) ∧
    (isOrphan oracle calendarID allEventsId r = false →
      r ∈ (cleanupDestination oracle calendarID allEventsId otherCal st).db ∧
      ∀ c ∈ (cleanupDestination oracle calendarID allEventsId otherCal st).calls,
        c ∈ st.calls ∨
        ∃ eid, c = RemoteCall.delete otherCal.ID eid ∧ eid ≠ r.event_id) := by
  have hsel : r ∈ st.db.filter (fun r =>
      decide (r.calendar_id = otherCal.ID ∧ r.origin_calendar_id = calendarID)) :=
    List.mem_filter.mpr ⟨hr, by simp [hcal, horig]⟩
  rw [cleanupDestination_eq oracle calendarID allEventsId otherCal st hf hne]
  refine ⟨?_, ?_, ?_⟩
  · unfold isOrphan
    cases hg : oracle.getEvent calendarID r.origin_event_id with
    | ok e => rfl
    | error e => rfl
  · intro horph hmem
    have hdel : r.event_id ∈
        ((st.db.filter (fun r =>
          decide (r.calendar_id = otherCal.ID ∧ r.origin_calendar_id = calendarID))).filter
          (isOrphan oracle calendarID allEventsId)).map (fun r => r.event_id) :=
      List.mem_map.mpr ⟨r, List.mem_filter.mpr ⟨hsel, horph⟩, rfl⟩
    exact (cleanupFold_removes oracle otherCal.ID hd _ st r.event_id hf hdel r hmem) rfl
  · intro horph
    have hnotdel : r.event_id ∉
        ((st.db.filter (fun r =>
          decide (r.calendar_id = otherCal.ID ∧ r.origin_calendar_id = calendarID))).filter
          (isOrphan oracle calendarID allEventsId)).map (fun r => r.event_id) := by
      intro hmem
      rcases List.mem_map.mp hmem with ⟨r2, hr2, hid⟩
      have hr2db : r2 ∈ st.db :=
        List.mem_of_mem_filter (List.mem_of_mem_filter hr2)
      have hreq : r2 = r :=
        List.inj_on_of_nodup_map hnd hr2db hr hid
      have horph2 := (List.mem_filter.mp hr2).2
      rw [hreq, horph] at horph2
      exact Bool.false_ne_true horph2
    refine ⟨cleanupFold_preserves_row oracle otherCal.ID _ st r hr hnotdel, ?_⟩
    intro c hc
    rcases cleanupFold_calls_shape oracle otherCal.ID _ st c hc with h | ⟨eid, hm, he⟩
    · exact Or.inl h
    · refine Or.inr ⟨eid, he, ?_⟩
      intro heq
      exact hnotdel (heq ▸ hm)

/-- Witness for C5 (amended): a concrete non-orphan row (its origin event is
still listed) survives the destination cleanup. -/
theorem cleanupDestination_orphan_semantics_witness :
    (⟨"blk1", "calA", "calB", "acc2", "ev1", "t0", "accepted"⟩ : BlockerRow) ∈
      (cleanupDestination steadyOracle "calA" ["ev1"] calB
        { db := [⟨"blk1", "calA", "calB", "acc2", "ev1", "t0", "accepted"⟩],
          calls := [], fatal := false }).db :=
  ((cleanupDestination_orphan_semantics steadyOracle "calA" ["ev1"] calB
    { db := [⟨"blk1", "calA", "calB", "acc2", "ev1", "t0", "accepted"⟩],
      calls := [], fatal := false }
    ⟨"blk1", "calA", "calB", "acc2", "ev1", "t0", "accepted"⟩
    rfl (fun _ _ => rfl) (by decide) (List.mem_cons_self _ _) rfl rfl
    (by decide)).2.2 (by decide)).1

/-- The oracle of the C5 counterexample: the origin event's direct fetch fails
with an error other than not-found (say a network failure), while the blocker
is still present on the destination and deletes succeed. -/
def flakyOracle : Oracle :=
  { listEvents := fun _ _ _ => .ok []
    addEvent := fun _ _ => .ok "blkX"
    updateEvent := fun _ _ _ => .ok ()
    deleteEvent := fun _ _ => .ok ()
    getEvent := fun calId eid =>
      if calId = "calB" ∧ eid = "blkX"
      then .ok ⟨"blkX", "O_o Planning", "", 100, 200, "confirmed"⟩
      else .error .other }

/-- Counterexample to claim C5 as stated: for a ledger row whose origin event
was not seen, the direct source fetch fails with an error that is NOT
not-found ('other'), an outcome the claim says must leave the row and the
remote blocker untouched — yet the engine deletes the remote blocker and the
ledger row (and the spec-worded orphan test disagrees with the code's). -/
theorem cleanup_orphan_on_any_fetch_failure :
    flakyOracle.getEvent "calA" "evGone" = .error .other ∧
    isOrphanSpec flakyOracle "calA" []
      ⟨"blkX", "calA", "calB", "acc2", "evGone", "t0", "accepted"⟩ = false ∧
    isOrphan flakyOracle "calA" []
      ⟨"blkX", "calA", "calB", "acc2", "evGone", "t0", "accepted"⟩ = true ∧
    (cleanupDestination flakyOracle "calA" [] calB
      { db := [⟨"blkX", "calA", "calB", "acc2", "evGone", "t0", "accepted"⟩],
        calls := [], fatal := false }).db = [] ∧
    (cleanupDestination flakyOracle "calA" [] calB
      { db := [⟨"blkX", "calA", "calB", "acc2", "evGone", "t0", "accepted"⟩],
        calls := [], fatal := false }).calls =
      [RemoteCall.delete "calB" "blkX"] := by
  refine ⟨rfl, rfl, rfl, rfl, rfl⟩

/-! ## Sync-window lemmas (claim C8) -/

theorem goDate_first (y m : Int) (h1 : 1 ≤ m) (h2 : m ≤ 12) :
    goDate y m 1 = ⟨y, m, 1⟩ := by
  have hb := daysInMonth_bounds y m
  unfold goDate normMonth
  dsimp only
  have e1 : (m - 1) / 12 = 0 := by omega
  have e2 : (m - 1) % 12 = m - 1 := by omega
  rw [e1, e2]
  have e3 : y + 0 = y := by ring
  have e4 : m - 1 + 1 = m := by ring
  rw [e3, e4]
  rw [normDay]
  rw [if_neg (by omega), if_pos (by omega)]

theorem normDay_zero_first (y : Int) :
    normDay y 1 0 = ⟨y - 1, 12, daysInMonth (y - 1) 12⟩ := by
  have hb := daysInMonth_bounds (y - 1) 12
  rw [normDay]
  norm_num
  rw [normDay, if_neg (by omega), if_pos (by omega)]

theorem normDay_zero_rest (y m : Int) (h1 : 2 ≤ m) (h2 : m ≤ 12) :
    normDay y m 0 = ⟨y, m - 1, daysInMonth y (m - 1)⟩ := by
  have hb := daysInMonth_bounds y (m - 1)
  rw [normDay, if_pos (by omega : (0:Int) < 1)]
  dsimp only
  rw [if_neg (by omega : ¬(m = 1)), if_neg (by omega : ¬(m = 1))]
  rw [normDay, if_neg (by omega), if_pos (by omega)]
  congr 1
  omega

theorem syncWindow_fst (y m : Int) (h1 : 1 ≤ m) (h2 : m ≤ 12) :
    (syncWindow y m).1 = ⟨y, m, 1⟩ :=
  goDate_first y m h1 h2

theorem syncWindow_snd (y m : Int) (h1 : 1 ≤ m) (h2 : m ≤ 12) :
    (syncWindow y m).2 = lastDayOfNextMonth y m := by
  show addDate (goDate y m 1) 0 2 (-1) = lastDayOfNextMonth y m
  rw [goDate_first y m h1 h2]
  show goDate (y + 0) (m + 2) (1 + -1) = lastDayOfNextMonth y m
  unfold lastDayOfNextMonth goDate normMonth
  dsimp only
  rcases show m ≤ 10 ∨ m = 11 ∨ m = 12 by omega with hm | hm | hm
  · have e1 : y + 0 + (m + 2 - 1) / 12 = y := by omega
    have e2 : (m + 2 - 1) % 12 + 1 = m + 2 := by omega
    have e3 : (1 : Int) + -1 = 0 := by norm_num
    rw [e1, e2, e3, normDay_zero_rest y (m + 2) (by omega) (by omega)]
    have f1 : y + (m + 1 - 1) / 12 = y := by omega
    have f2 : (m + 1 - 1) % 12 + 1 = m + 1 := by omega
    rw [f1, f2, show m + 2 - 1 = m + 1 by omega]
  · subst hm
    norm_num
    rw [normDay_zero_first (y + 1), show y + 1 - 1 = y by ring]
  · subst hm
    norm_num
    rw [normDay_zero_rest (y + 1) 2 (by omega) (by omega)]
    norm_num

/-! ## Propagation calls originate from listed events (claim C8) -/

/-- Every remote write of a run is either the blocker write of a listed
source event or a delete from the cleanup pass. -/
def isBlockerWriteOf (events : List Event) (c : RemoteCall) : Prop :=
  match c with
  | .add _ ev => ∃ e ∈ events, ev = mkBlockerEvent e
  | .update _ _ ev => ∃ e ∈ events, ev = mkBlockerEvent e
  | .delete _ _ => True

theorem writeBlocker_calls_eq (oracle : Oracle)
    (calendarID nowStr otherAccountName : String) (otherCal : CalendarInfo)
    (event : Event) (existingID : String) (st : SyncState) :
    (writeBlocker oracle calendarID nowStr otherAccountName otherCal event
      existingID st).calls =
      st.calls ++ [writeCall otherCal.ID existingID (mkBlockerEvent event)] := by
  unfold writeBlocker
  dsimp only
  split <;> rfl

theorem writeCall_isBlockerWriteOf (events : List Event) (event : Event)
    (hev : event ∈ events) (destCalId existingID : String) :
    isBlockerWriteOf events (writeCall destCalId existingID (mkBlockerEvent event)) := by
  unfold writeCall
  split
  · exact ⟨event, hev, rfl⟩
  · exact ⟨event, hev, rfl⟩

theorem processDestination_calls_inv (oracle : Oracle) (calendarID nowStr : String)
    (event : Event) (otherAccountName : String) (otherCal : CalendarInfo)
    (st : SyncState) (events : List Event) (hev : event ∈ events)
    (h : ∀ c ∈ st.calls, isBlockerWriteOf events c) :
    ∀ c ∈ (processDestination oracle calendarID nowStr event otherAccountName
      otherCal st).calls, isBlockerWriteOf events c := by
  intro c hc
  unfold processDestination at hc
  split at hc
  · exact h c hc
  split at hc
  · exact h c hc
  split at hc
  · split at hc
    · exact h c hc
    · rw [writeBlocker_calls_eq] at hc
      rcases List.mem_append.mp hc with h1 | h1
      · exact h c h1
      · rw [List.mem_singleton.mp h1]
        exact writeCall_isBlockerWriteOf events event hev otherCal.ID _
  · rw [writeBlocker_calls_eq] at hc
    rcases List.mem_append.mp hc with h1 | h1
    · exact h c h1
    · rw [List.mem_singleton.mp h1]
      exact writeCall_isBlockerWriteOf events event hev otherCal.ID _

theorem processEvent_calls_inv (oracle : Oracle)
    (calendars : List (String × List CalendarInfo))
    (calendarID nowStr providerType : String) (events : List Event) (st : SyncState)
    (event : Event) (hev : event ∈ events)
    (h : ∀ c ∈ st.calls, isBlockerWriteOf events c) :
    ∀ c ∈ (processEvent oracle calendars calendarID nowStr providerType st
      event).calls, isBlockerWriteOf events c := by
  unfold processEvent
  split
  · exact h
  split
  · exact h
  split
  · refine foldl_inv (fun s => ∀ c ∈ s.calls, isBlockerWriteOf events c) _ calendars ?_ st h
    intro st1 p _ h1
    refine foldl_inv (fun s => ∀ c ∈ s.calls, isBlockerWriteOf events c) _ p.2 ?_ st1 h1
    intro st2 cc _ h2
    exact processDestination_calls_inv oracle calendarID nowStr event p.1 cc st2
      events hev h2
  · exact h

theorem propagationPass_calls_inv (oracle : Oracle)
    (calendars : List (String × List CalendarInfo))
    (calendarID nowStr providerType : String) (events : List Event) (st : SyncState)
    (h : ∀ c ∈ st.calls, isBlockerWriteOf events c) :
    ∀ c ∈ (propagationPass oracle calendars calendarID nowStr providerType events
      st).calls, isBlockerWriteOf events c := by
  unfold propagationPass
  refine foldl_inv (fun s => ∀ c ∈ s.calls, isBlockerWriteOf events c) _ events ?_ st h
  intro st1 e he h1
  exact processEvent_calls_inv oracle calendars calendarID nowStr providerType
    events st1 e he h1

theorem cleanupDestination_calls_cases (oracle : Oracle) (calendarID : String)
    (allEventsId : List String) (otherCal : CalendarInfo) (st : SyncState) :
    ∀ c ∈ (cleanupDestination oracle calendarID allEventsId otherCal st).calls,
      c ∈ st.calls ∨ ∃ eid, c = RemoteCall.delete otherCal.ID eid := by
  intro c hc
  unfold cleanupDestination at hc
  split at hc
  · exact Or.inl hc
  split at hc
  · exact Or.inl hc
  · rcases cleanupFold_calls_shape oracle otherCal.ID _ st c hc with h | ⟨eid, _, he⟩
    · exact Or.inl h
    · exact Or.inr ⟨eid, he⟩

theorem cleanupPass_calls_inv (oracle : Oracle)
    (calendars : List (String × List CalendarInfo)) (calendarID : String)
    (allEventsId : List String) (st : SyncState) (events : List Event)
    (h : ∀ c ∈ st.calls, isBlockerWriteOf events c) :
    ∀ c ∈ (cleanupPass oracle calendars calendarID allEventsId st).calls,
      isBlockerWriteOf events c := by
  unfold cleanupPass
  refine foldl_inv (fun s => ∀ c ∈ s.calls, isBlockerWriteOf events c) _ calendars ?_ st h
  intro st1 p _ h1
  refine foldl_inv (fun s => ∀ c ∈ s.calls, isBlockerWriteOf events c) _ p.2 ?_ st1 h1
  intro st2 cc _ h2 c hc
  rcases cleanupDestination_calls_cases oracle calendarID allEventsId cc st2 c hc with
    hh | ⟨eid, he⟩
  · exact h2 c hh
  · rw [he]; trivial

/-- Claim C8: the propagation pass of a run at clock (year, month) lists each
source calendar's events over exactly the window from the 1st of the current
month at 00:00 UTC through the code's AddDate(0, 2, -1) endpoint — which
equals the last day of the next month — and every AddEvent or UpdateEvent the
run issues carries the blocker of an event returned by that listing. -/
theorem sync_window_spec (oracle : Oracle) (calendarID : String)
    (calendars : List (String × List CalendarInfo)) (nowYear nowMonth : Int)
    (nowStr providerType : String) (db0 : List BlockerRow) (events : List Event)
    (h1 : 1 ≤ nowMonth) (h2 : nowMonth ≤ 12)
    (hlist : oracle.listEvents calendarID (syncWindow nowYear nowMonth).1
      (syncWindow nowYear nowMonth).2 = .ok events) :
    (syncWindow nowYear nowMonth).1 = ⟨nowYear, nowMonth, 1⟩ ∧
    (syncWindow nowYear nowMonth).2 = lastDayOfNextMonth nowYear nowMonth ∧
    ∀ c ∈ (syncCalendarWithProvider oracle calendarID calendars nowYear nowMonth
      nowStr providerType db0).calls, isBlockerWriteOf events c := by
  refine ⟨syncWindow_fst nowYear nowMonth h1 h2, syncWindow_snd nowYear nowMonth h1 h2, ?_⟩
  intro c hc
  unfold syncCalendarWithProvider at hc
  dsimp only at hc
  rw [hlist] at hc
  exact cleanupPass_calls_inv oracle calendars calendarID _ _ events
    (propagationPass_calls_inv oracle calendars calendarID nowStr providerType
      events { db := db0, calls := [], fatal := false } (by intro c hc; cases hc))
    c hc

/-- Witness for C8: the concrete May 2024 run: the window runs from 2024-05-01
to 2024-06-30 (the last day of the next month), and every write of the run is
a blocker write of a listed event. -/
theorem sync_window_spec_witness :
    (1 : Int) ≤ 5 ∧ (5 : Int) ≤ 12 ∧
    (syncWindow 2024 5).1 = ⟨2024, 5, 1⟩ ∧
    (syncWindow 2024 5).2 = lastDayOfNextMonth 2024 5 ∧
    ∀ c ∈ demoRun1.calls, isBlockerWriteOf [ev1] c := by
  have h := sync_window_spec steadyOracle "calA" demoCalendars 2024 5
    "2024-05-10T08:00:00Z" "caldav" [] [ev1] (by norm_num) (by norm_num) rfl
  exact ⟨by norm_num, by norm_num, h.1, h.2.1, h.2.2⟩

/-! ## Claim C9: CalDAV AddEvent identifiers are wall-clock seconds -/

theorem filter_not_filter {α : Type _} (l : List α) (p : α → Bool) :
    (l.filter (fun x => !(p x))).filter p = [] := by
  induction l with
  | nil => rfl
  | cons x xs ih =>
    by_cases hx : p x = true
    · rw [List.filter_cons_of_neg (by simp [hx])]
      exact ih
    · rw [List.filter_cons_of_pos (by simp [hx])]
      rw [List.filter_cons_of_neg (by simp [hx])]
      exact ih

theorem putObject_filter_path (store : List (String × ICalObj)) (path : String)
    (obj : ICalObj) :
    (putObject store path obj).filter (fun o => decide (o.1 = path)) = [(path, obj)] := by
  show ((path, obj) :: store.filter (fun e => !(decide (e.1 = path)))).filter
    (fun o => decide (o.1 = path)) = [(path, obj)]
  rw [List.filter_cons_of_pos (by simp)]
  rw [filter_not_filter store (fun o => decide (o.1 = path))]

/-- Claim C9: CalDAV AddEvent returns "gcalsync-" followed by the wall-clock
creation time at one-second granularity, independent of the event's content;
two AddEvent calls on the same calendar within the same second (clocks equal
up to the sub-second part) return equal identifiers and write to the same
resource path, the second PUT replacing the first object instead of creating
a distinct event. -/
theorem caldavAddEvent_uid_wallclock (t : GoClock) (n : Int) (e1 e2 : Event)
    (calPath : String) (store : List (String × ICalObj)) :
    (caldavAddEvent t calPath e1 store).1 = "gcalsync-" ++ formatCompactUTC t ∧
    (caldavAddEvent { t with nanos := n } calPath e2 store).1 =
      (caldavAddEvent t calPath e1 store).1 ∧
    ((caldavAddEvent t calPath e1 store).2.filter (fun o =>
      decide (o.1 = calPath ++ "/" ++ ("gcalsync-" ++ formatCompactUTC t) ++ ".ics"))) =
      [(calPath ++ "/" ++ ("gcalsync-" ++ formatCompactUTC t) ++ ".ics",
        mkICal ("gcalsync-" ++ formatCompactUTC t) e1)] ∧
    ((caldavAddEvent { t with nanos := n } calPath e2
        (caldavAddEvent t calPath e1 store).2).2.filter (fun o =>
      decide (o.1 = calPath ++ "/" ++ ("gcalsync-" ++ formatCompactUTC t) ++ ".ics"))) =
      [(calPath ++ "/" ++ ("gcalsync-" ++ formatCompactUTC t) ++ ".ics",
        mkICal ("gcalsync-" ++ formatCompactUTC t) e2)] := by
  refine ⟨rfl, rfl, ?_, ?_⟩
  · exact putObject_filter_path store _ _
  · exact putObject_filter_path (caldavAddEvent t calPath e1 store).2 _ _
